import Mathlib

/-!
Verification development for the gst GUI command runner
(gst_gui/utils/cli_runner.py).  Strings from the Python side are
modelled as lists of characters; machine effects (the file system, the
child process, the shared cancellation event) are modelled as explicit
parameters.  Each definition carries a note naming the source lines it
embeds.
-/

set_option maxHeartbeats 1000000
set_option maxRecDepth 100000

/-! ## Definitions: the embedded data model and operations -/

/-- ASCII lower-casing of one character, as used by the IGNORECASE
regular-expression flag on the ASCII stems handled here. -/
def toLowerC (c : Char) : Char :=
  if 'A' ≤ c ∧ c ≤ 'Z' then Char.ofNat (c.toNat + 32) else c

/-- Python truthiness of a string value. -/
def truthy (s : List Char) : Bool := !s.isEmpty

/-- Python truthiness of an optional string (None and the empty string
are falsy). -/
def truthyO : Option (List Char) → Bool
  | none => false
  | some s => truthy s

/-- Whitespace characters removed by the Python str.strip and
str.rstrip methods with no argument. -/
def isPyWs (c : Char) : Bool :=
  c = ' ' ∨ c = '\t' ∨ c = '\n' ∨ c = '\x0d' ∨ c = '\x0b' ∨ c = '\x0c'

/-- Python str.strip with no argument. -/
def pyStrip (l : List Char) : List Char :=
  ((l.dropWhile isPyWs).reverse.dropWhile isPyWs).reverse

/-- Python str.rstrip with no argument. -/
def pyRstrip (l : List Char) : List Char :=
  (l.reverse.dropWhile isPyWs).reverse

/-- Characters removed at both ends by strip with the argument
consisting of dot, hyphen, underscore and space
(cli_runner.py line 296). -/
def isSepSp (c : Char) : Bool :=
  c = '.' ∨ c = '-' ∨ c = '_' ∨ c = ' '

/-- Python str.strip with the four-character separator set
(cli_runner.py line 296). -/
def pyStripSeps (l : List Char) : List Char :=
  ((l.dropWhile isSepSp).reverse.dropWhile isSepSp).reverse

/-- Basename of a posix path: the part after the final slash, after
dropping trailing slashes (pathlib Path.name). -/
def pathName (p : List Char) : List Char :=
  let q := (p.reverse.dropWhile (· = '/')).reverse
  (q.reverse.takeWhile (· ≠ '/')).reverse

/-- Index of the dot splitting off the pathlib suffix: the last dot of
the name counts only when it is neither the first nor the last
character.  Returns the stem (pathlib Path.stem). -/
def pathStem (p : List Char) : List Char :=
  let n := pathName p
  let revIdx := n.reverse.findIdx (· = '.')
  if revIdx < n.length then
    let i := n.length - 1 - revIdx
    if 0 < i ∧ i < n.length - 1 then n.take i else n
  else n

/-- Parent directory of a posix path as a string, following pathlib:
no slash means the parent is the dot path (pathlib Path.parent). -/
def pathParent (p : List Char) : List Char :=
  let q := (p.reverse.dropWhile (· = '/')).reverse
  if q.contains '/' then
    let r := (q.reverse.dropWhile (· ≠ '/')).reverse
    let r := (r.reverse.dropWhile (· = '/')).reverse
    if r.isEmpty then ['/'] else r
  else ['.']

/-- Joining a pathlib parent with a filename and rendering it as a
string: a dot parent disappears, a root parent keeps a single slash. -/
def pathJoin (parent filename : List Char) : List Char :=
  if parent = ['.'] then filename
  else if parent = ['/'] then '/' :: filename
  else parent ++ '/' :: filename

/-- The language-code table of cli_runner.py lines 243-275, in the
textual order of the set literal.  Python iterates this set in an
unspecified (hash-dependent) order, so definitions below take the
iteration order as a parameter; this list fixes one concrete order and
also serves as the membership table. -/
def language_codes : List (List Char) :=
  ["en".data, "eng".data, "english".data,
   "it".data, "ita".data, "italian".data, "italiano".data,
   "pl".data, "pol".data, "polish".data, "polski".data,
   "es".data, "esp".data, "spanish".data, "espanol".data,
   "fr".data, "fra".data, "french".data, "francais".data,
   "de".data, "ger".data, "german".data, "deutsch".data,
   "pt".data, "por".data, "portuguese".data, "portugues".data,
   "ru".data, "rus".data, "russian".data,
   "ja".data, "jpn".data, "japanese".data,
   "ko".data, "kor".data, "korean".data,
   "zh".data, "chi".data, "chinese".data,
   "ar".data, "ara".data, "arabic".data,
   "hi".data, "hin".data, "hindi".data,
   "nl".data, "dut".data, "dutch".data,
   "sv".data, "swe".data, "swedish".data,
   "no".data, "nor".data, "norwegian".data,
   "da".data, "dan".data, "danish".data,
   "fi".data, "fin".data, "finnish".data,
   "tr".data, "tur".data, "turkish".data,
   "he".data, "heb".data, "hebrew".data,
   "el".data, "gre".data, "greek".data,
   "cs".data, "cze".data, "czech".data,
   "hu".data, "hun".data, "hungarian".data,
   "ro".data, "rum".data, "romanian".data,
   "bg".data, "bul".data, "bulgarian".data,
   "hr".data, "cro".data, "croatian".data,
   "sk".data, "slo".data, "slovak".data,
   "sl".data, "slv".data, "slovenian".data,
   "et".data, "est".data, "estonian".data,
   "lv".data, "lat".data, "latvian".data,
   "lt".data, "lit".data, "lithuanian".data]

/-- Case-insensitive prefix removal: when the lowered input starts
with the (lowercase) code, return the remainder. -/
def dropPrefixCI : List Char → List Char → Option (List Char)
  | [], l => some l
  | _ :: _, [] => none
  | c :: cs, d :: ds => if toLowerC d = toLowerC c then dropPrefixCI cs ds else none

/-- Lookahead of the end-anchored dot pattern: the next character is a
dot or the input ends (the regex lookahead group on line 284). -/
def look1 : List Char → Bool
  | [] => true
  | c :: _ => c = '.'

/-- Lookahead of the separator pattern: the next character is a
hyphen, underscore or dot, or the input ends (line 285). -/
def look2 : List Char → Bool
  | [] => true
  | c :: _ => c = '-' ∨ c = '_' ∨ c = '.'

/-- One left-to-right re.sub pass of the pattern that removes a dot
followed by the code when a dot or the end of the stem follows
(cli_runner.py line 284).  The fuel argument bounds the recursion and
is always instantiated with the length of the input. -/
def subP1Go (code : List Char) : Nat → List Char → List Char
  | _, [] => []
  | 0, l => l
  | fuel + 1, c :: rest =>
    if c = '.' then
      match dropPrefixCI code rest with
      | some rest' =>
        if look1 rest' then subP1Go code fuel rest'
        else c :: subP1Go code fuel rest
      | none => c :: subP1Go code fuel rest
    else c :: subP1Go code fuel rest

/-- re.sub of the end-anchored dot pattern (line 284). -/
def subP1 (code l : List Char) : List Char := subP1Go code l.length l

/-- One left-to-right re.sub pass of the pattern removing a hyphen or
underscore followed by the code when a separator or the end follows
(cli_runner.py line 285). -/
def subP2Go (code : List Char) : Nat → List Char → List Char
  | _, [] => []
  | 0, l => l
  | fuel + 1, c :: rest =>
    if c = '-' ∨ c = '_' then
      match dropPrefixCI code rest with
      | some rest' =>
        if look2 rest' then subP2Go code fuel rest'
        else c :: subP2Go code fuel rest
      | none => c :: subP2Go code fuel rest
    else c :: subP2Go code fuel rest

/-- re.sub of the separator pattern (line 285). -/
def subP2 (code l : List Char) : List Char := subP2Go code l.length l

/-- re.sub of the start-anchored pattern: the code at the very start
followed by a separator, both removed (cli_runner.py line 286). -/
def subP3 (code l : List Char) : List Char :=
  match dropPrefixCI code l with
  | some (s :: rest) => if s = '-' ∨ s = '_' ∨ s = '.' then rest else l
  | _ => l

/-- Whether the end-anchored dot pattern matches anywhere (line 284). -/
def hasP1 (code : List Char) : List Char → Bool
  | [] => false
  | c :: rest =>
    if c = '.' then
      (match dropPrefixCI code rest with
       | some rest' => look1 rest'
       | none => false) || hasP1 code rest
    else hasP1 code rest

/-- Whether the separator pattern matches anywhere (line 285). -/
def hasP2 (code : List Char) : List Char → Bool
  | [] => false
  | c :: rest =>
    if c = '-' ∨ c = '_' then
      (match dropPrefixCI code rest with
       | some rest' => look2 rest'
       | none => false) || hasP2 code rest
    else hasP2 code rest

/-- Whether the start-anchored pattern matches (line 286). -/
def hasP3 (code l : List Char) : Bool :=
  match dropPrefixCI code l with
  | some (s :: _) => s = '-' ∨ s = '_' ∨ s = '.'
  | _ => false

/-- The stem contains some recognized language-code token delimited as
one of the three source patterns requires. -/
def hasLangToken (l : List Char) : Bool :=
  language_codes.any fun c => hasP1 c l ∨ hasP2 c l ∨ hasP3 c l

/-- The three substitutions applied for one code, in source order
(cli_runner.py lines 283-290). -/
def stripOneCode (l code : List Char) : List Char :=
  subP3 code (subP2 code (subP1 code l))

/-- The substitution loop over the whole code set, in the given
iteration order (cli_runner.py lines 281-290). -/
def stripAllCodes (order : List (List Char)) (stem : List Char) : List Char :=
  order.foldl stripOneCode stem

/-- Collapsing of maximal runs of one character to a single copy, as
re.sub of the one-character-run patterns does (lines 293-295). -/
def collapseChar (c : Char) : List Char → List Char
  | [] => []
  | [a] => [a]
  | a :: b :: rest =>
    if a = c ∧ b = c then collapseChar c (b :: rest)
    else a :: collapseChar c (b :: rest)

/-- Separator cleanup applied after stripping: collapse runs of dots,
hyphens and underscores, then strip separators and spaces from both
ends (cli_runner.py lines 293-296). -/
def sepCleanup (l : List Char) : List Char :=
  pyStripSeps (collapseChar '_' (collapseChar '-' (collapseChar '.' l)))

/-- Embedding of _clean_filename_from_language_codes
(cli_runner.py lines 240-298).  The set iteration order is explicit;
the fallback on line 298 returns the original stem whenever the
cleaned result is empty. -/
def _clean_filename_from_language_codes (order : List (List Char))
    (filename_stem : List Char) : List Char :=
  let result := sepCleanup (stripAllCodes order filename_stem)
  if result.isEmpty then filename_stem else result

/-- Exact prefix test on character lists. -/
def startsWithSeq : List Char → List Char → Bool
  | [], _ => true
  | _ :: _, [] => false
  | c :: cs, d :: ds => c = d && startsWithSeq cs ds

/-- Python substring containment (the in operator on strings). -/
def containsSeq (needle : List Char) : List Char → Bool
  | [] => needle.isEmpty
  | c :: rest => startsWithSeq needle (c :: rest) || containsSeq needle rest

instance {ε α : Type} [DecidableEq ε] [DecidableEq α] : DecidableEq (Except ε α) := fun a b =>
  match a, b with
  | .ok x, .ok y =>
    if h : x = y then isTrue (congrArg Except.ok h)
    else isFalse fun hh => h (Except.ok.inj hh)
  | .error x, .error y =>
    if h : x = y then isTrue (congrArg Except.error h)
    else isFalse fun hh => h (Except.error.inj hh)
  | .ok _, .error _ => isFalse fun hh => Except.noConfusion hh
  | .error _, .ok _ => isFalse fun hh => Except.noConfusion hh

/-- Python exceptions that can escape the modelled code paths:
Path(None) raises TypeError (line 317), and the cancellation log line
after an empty batch reads the unbound loop variable, raising
NameError (line 102). -/
inductive PyError where
  | typeError : PyError
  | nameError : PyError
deriving DecidableEq, Repr

/-- The configuration dictionary fields read by the command builder
and the runner (language, codes, credentials, model, metadata and the
processing toggles). -/
structure Config where
  language : List Char
  language_code : List Char
  gemini_api_key : List Char
  model : List Char
  overview : List Char
  movie_title : List Char
  is_tv_series : Bool
  extract_audio : Bool
  add_translator_info : Bool
deriving Repr

/-- The sentinel test of lines 305 and 385: the basename ends with one
of the placeholder strings. -/
def endsSentinel (n : List Char) : Bool :=
  "No match".data.isSuffixOf n || "None".data.isSuffixOf n

/-- The fixed subtitle-formatting style guide of lines 360-365,
embedded verbatim (including the literal indentation of the Python
triple-quoted string). -/
def translation_prompt : List Char :=
  ("When translating text, follow these formatting rules:\n            1. Line length: Keep lines to 40-50 characters when possible, breaking at natural phrase boundaries or punctuation marks.\n            2. Dialogue formatting: When text contains dialogue between multiple speakers, format each speaker\x27s lines separately, starting each with a dash (-).\n            3. Spacing: Ensure proper spacing between words and after punctuation marks.\n            4. Sentence breaks: If a sentence continues on the next line, maintain proper spacing between the end of one line and the beginning of the next.\n            ").data

/-- Description arguments of lines 353-379: both overview and title,
only an overview, only a title, or nothing. -/
def descArgs (overview title : List Char) (is_tv_series : Bool) : List (List Char) :=
  let content_type := if is_tv_series then "TV series".data else "movie".data
  if truthy overview ∧ truthy title then
    ["--description".data,
     translation_prompt ++ " It is a ".data ++ content_type ++ " called ".data ++
       title ++ ". Description: ".data ++ overview]
  else if truthy overview then
    ["--description".data, overview]
  else if truthy title then
    ["--description".data,
     "It is a ".data ++ content_type ++ " called ".data ++ title ++ ".".data]
  else []

/-- Video arguments of lines 382-396: a usable video path adds the
video flag, plus the audio-extraction flag when enabled. -/
def videoArgs (video_file : Option (List Char)) (extract_audio : Bool) : List (List Char) :=
  match video_file with
  | none => []
  | some v =>
    if truthy v then
      if !endsSentinel (pathName v) then
        if extract_audio then ["-v".data, v, "--extract-audio".data]
        else ["-v".data, v]
      else []
    else []

/-- Embedding of _build_gst_command (cli_runner.py lines 300-397).
A Python None argument is the none case; an error value models an
uncaught exception (Path(None) on line 317 raises TypeError when the
subtitle is unusable and the video is None).  The function otherwise
always returns a non-empty argument list: no code path returns a
falsy build-failure value. -/
def _build_gst_command (gst_cmd : List Char)
    (subtitle_file video_file : Option (List Char)) (config : Config) :
    Except PyError (List (List Char)) :=
  -- lines 302-308
  let useSub : Bool := truthyO subtitle_file &&
    !endsSentinel (pathName (subtitle_file.getD []))
  let cmd := [gst_cmd, "translate".data] ++
    (if useSub then ["-i".data, subtitle_file.getD []] else [])
  let sub1 : Option (List Char) :=
    if truthyO subtitle_file then
      if endsSentinel (pathName (subtitle_file.getD [])) then none else subtitle_file
    else subtitle_file
  -- lines 314-317: Path(video_file) raises TypeError when video_file is None
  let base? : Except PyError (List Char) :=
    if truthyO sub1 then .ok (sub1.getD [])
    else match video_file with
      | none => .error .typeError
      | some v => .ok v
  match base? with
  | .error e => .error e
  | .ok base =>
    -- lines 319-324
    let cleaned_stem := _clean_filename_from_language_codes language_codes (pathStem base)
    let output_filename := cleaned_stem ++ ".".data ++ config.language_code ++ ".srt".data
    let output_path := pathJoin (pathParent base) output_filename
    let cmd := cmd ++ ["-o".data, output_path]
    -- line 331
    let cmd := cmd ++ ["-l".data, config.language]
    -- lines 335-337
    let key := pyStrip config.gemini_api_key
    let cmd := cmd ++ (if truthy key then ["-k".data, key] else [])
    -- lines 343-344
    let cmd := cmd ++ ["--model".data, config.model]
    -- lines 348-349
    let cmd := cmd ++
      (if containsSeq "2.0".data config.model then ["--batch-size".data, "100".data] else [])
    -- lines 353-379
    let cmd := cmd ++ descArgs (pyStrip config.overview) (pyStrip config.movie_title)
      config.is_tv_series
    -- lines 382-396
    let cmd := cmd ++ videoArgs video_file config.extract_audio
    .ok cmd

/-- Usability of a path value in the words of the specification: the
value is non-empty and differs, case-sensitively, from the two
sentinel strings.  Stated from the spec for comparison against the
code; the code instead tests whether the basename merely ends with a
sentinel. -/
def usable_spec (s : List Char) : Bool :=
  !s.isEmpty && !(s = "No match".data : Bool) && !(s = "None".data : Bool)

/-- Usability as the code actually computes it on lines 303-308: a
truthy value whose basename does not end with either sentinel. -/
def usable_code (s : List Char) : Bool :=
  truthy s && !endsSentinel (pathName s)

/-- A fixed sample configuration used by concrete evaluations. -/
def cfgSample : Config :=
  { language := "Polish".data
    language_code := "pl".data
    gemini_api_key := "KEY".data
    model := "gemini-2.5-flash".data
    overview := [], movie_title := []
    is_tv_series := false, extract_audio := false
    add_translator_info := true }

/-- Single-character escape alternative of the ANSI regular expression
on line 23: the byte after ESC lies in the range from the at sign to
capital Z, or from backslash to underscore. -/
def isEscSingle (c : Char) : Bool :=
  (0x40 ≤ c.toNat ∧ c.toNat ≤ 0x5A) ∨ (0x5C ≤ c.toNat ∧ c.toNat ≤ 0x5F)

/-- CSI parameter bytes, digits through question mark. -/
def isCsiParam (c : Char) : Bool := 0x30 ≤ c.toNat ∧ c.toNat ≤ 0x3F

/-- CSI intermediate bytes, space through slash. -/
def isCsiInter (c : Char) : Bool := 0x20 ≤ c.toNat ∧ c.toNat ≤ 0x2F

/-- CSI final bytes, at sign through tilde. -/
def isCsiFinal (c : Char) : Bool := 0x40 ≤ c.toNat ∧ c.toNat ≤ 0x7E

/-- Attempt to match the ANSI escape regular expression of line 23 at
the head of the input, returning the remainder after the match. -/
def matchAnsi : List Char → Option (List Char)
  | '\x1b' :: c :: rest =>
    if isEscSingle c then some rest
    else if c = '[' then
      let r1 := rest.dropWhile isCsiParam
      let r2 := r1.dropWhile isCsiInter
      match r2 with
      | f :: r3 => if isCsiFinal f then some r3 else none
      | [] => none
    else none
  | _ => none

/-- Left-to-right global substitution of the ANSI pattern with the
empty string (ansi_escape.sub on line 443).  Fuel-bounded; always
called with the input length as fuel. -/
def ansiStripGo : Nat → List Char → List Char
  | _, [] => []
  | 0, l => l
  | fuel + 1, c :: cs =>
    match matchAnsi (c :: cs) with
    | some rest => ansiStripGo fuel rest
    | none => c :: ansiStripGo fuel cs

/-- Removal of all ANSI escape sequences from one line. -/
def ansiStrip (l : List Char) : List Char := ansiStripGo l.length l

/-- Handling of one raw output line by the read loop of lines
437-445: trailing whitespace stripped, ANSI sequences removed, and the
result logged with a three-space indent when non-empty (line 445
logs the f-string with the indent prefix), or dropped when empty. -/
def processLine (line : List Char) : Option (List Char) :=
  let output_line := ansiStrip (pyRstrip line)
  if output_line.isEmpty then none else some ("   ".data ++ output_line)

/-- Result of the output-streaming loop: whether the run was cut by
cancellation, the logged lines in order, and the clock after the last
cancellation poll. -/
structure ExecOut where
  cancelled : Bool
  logs : List (List Char)
  t : Nat
deriving Repr

/-- Embedding of the read loop of _execute_command (lines 423-445).
The child process output is the list of complete lines; the
cancellation event is a trace indexed by poll number, polled once per
iteration before each read. -/
def readLines (cancel : Nat → Bool) : List (List Char) → Nat → ExecOut
  | lines, t =>
    if cancel t then ⟨true, [], t + 1⟩
    else
      match lines with
      | [] => ⟨false, [], t + 1⟩
      | l :: rest =>
        let out := readLines cancel rest (t + 1)
        ⟨out.cancelled, (processLine l).toList ++ out.logs, out.t⟩

/-- One parsed caption of the srt library: index, start and end times
in seconds, and the text content.  Times are rationals since srt
timestamps carry millisecond precision. -/
structure Subtitle where
  index : Nat
  start : ℚ
  stop : ℚ
  content : List Char
deriving DecidableEq, Repr

/-- Stable insertion of a caption into a list sorted by start time. -/
def insertByStart (x : Subtitle) : List Subtitle → List Subtitle
  | [] => [x]
  | y :: ys => if x.start ≤ y.start then x :: y :: ys else y :: insertByStart x ys

/-- Modelled from the spec: the re-sort step of srt.sort_and_reindex
(an external library call on line 586); the captions are sorted
stably by start time. -/
def sortByStart : List Subtitle → List Subtitle
  | [] => []
  | x :: xs => insertByStart x (sortByStart xs)

/-- Modelled from the spec: the re-indexing step of
srt.sort_and_reindex assigns sequential indices from the given
starting index. -/
def reindexFrom (n : Nat) : List Subtitle → List Subtitle
  | [] => []
  | s :: rest => { s with index := n } :: reindexFrom (n + 1) rest

/-- Embedding of the caption-level core of add_translator_info
(cli_runner.py lines 556-590): the parsed captions come in as a list
(srt.parse and the file reads are abstracted into the argument), the
attribution caption is computed, inserted first, and the list is
sorted and re-indexed from one. -/
def add_translator_info (subtitles : List Subtitle) (info : List Char) : List Subtitle :=
  let first_start : ℚ :=
    match subtitles with
    | [] => 5
    | s :: _ => s.start
  let end_time : ℚ := min first_start 5
  let start_time : ℚ := if end_time = 5 then 1 else 0
  let new_sub : Subtitle := ⟨1, start_time, end_time, info⟩
  reindexFrom 1 (sortByStart (new_sub :: subtitles))

/-- Abstract environment of one batch run: the cancellation trace,
the child-process outcome per pair number and start clock (returning
the new clock after the polls made inside the run), and the
file-system outcome of the attribution step per pair number. -/
structure RunEnv where
  cancel : Nat → Bool
  exec : Nat → Nat → Bool × Nat
  post : Nat → Except (List Char) Unit

/-- Logging around the file work of add_translator_info (lines
548-601): the internal try block catches every exception and logs it,
so no failure escapes this function.  The file-system outcome is the
argument; log text is abbreviated from the source messages. -/
def addTranslatorInfoRun (outcome : Except (List Char) Unit) : List (List Char) :=
  match outcome with
  | .ok _ => ["Added translator info".data]
  | .error e => ["Error adding translator info: ".data ++ e]

/-- The post-processing block of _run_single_translation (lines
150-169): derive the output path from the original subtitle value, or
from the video value when the subtitle is falsy (Path(None) on line
155 raises TypeError when the video is also None, caught by the
except on line 167), check the attribution toggle, and run the
attribution step.  Every exception is caught and logged here; the
block only produces log lines. -/
def postBlock (env : RunEnv) (pair : Option (List Char) × Option (List Char))
    (cfg : Config) (pair_number : Nat) : List (List Char) :=
  if truthyO pair.1 then
    if cfg.add_translator_info then addTranslatorInfoRun (env.post pair_number) else []
  else
    match pair.2 with
    | none => ["Could not add translator info: TypeError".data]
    | some _ =>
      if cfg.add_translator_info then addTranslatorInfoRun (env.post pair_number) else []

/-- Embedding of _run_single_translation (lines 109-171).  The result
carries the reported success flag, the clock after the last poll, and
the log lines of the post-processing block.  An error value is an
exception escaping the function (the builder raising TypeError). -/
def _run_single_translation (env : RunEnv) (gst_cmd : List Char) (cfg : Config)
    (pair : Option (List Char) × Option (List Char)) (pair_number t : Nat) :
    Except PyError (Bool × Nat × List (List Char)) :=
  -- lines 123-126: cancellation check before starting
  if env.cancel t then .ok (false, t + 1, [])
  else
    -- line 139
    match _build_gst_command gst_cmd pair.1 pair.2 cfg with
    | .error e => .error e
    | .ok cmd =>
      -- lines 141-143 (unreachable in practice: the builder never
      -- returns a falsy command)
      if cmd.isEmpty then .ok (false, t + 1, [])
      else
        -- line 146
        let r := env.exec pair_number (t + 1)
        if r.1 then
          -- line 149 polls the event once more; on cancellation the
          -- post-processing block is skipped but success is kept
          if env.cancel r.2 then .ok (true, r.2 + 1, [])
          else .ok (true, r.2 + 1, postBlock env pair cfg pair_number)
        else .ok (false, r.2, [])

/-- Outcome of the pair loop of run_translation_batch (lines 85-98):
final clock, success count, the recorded result of every pair whose
run completed (pair number with reported flag, in order), the last
value bound to the loop variable, a propagating exception, and
whether the loop stopped early. -/
structure LoopOut where
  t : Nat
  success_count : Nat
  results : List (Nat × Bool)
  lastI : Option Nat
  err : Option PyError
  stopped : Bool
deriving Repr

/-- Embedding of the loop of run_translation_batch (lines 85-98):
poll before each pair and stop on a set signal; run the pair; count a
success; on failure poll again and stop when the signal is set. -/
def batchLoop (env : RunEnv) (gst_cmd : List Char) (cfg : Config) :
    List (Option (List Char) × Option (List Char)) → Nat → Nat → Nat → LoopOut
  | [], _, t, sc => ⟨t, sc, [], none, none, false⟩
  | p :: rest, i, t, sc =>
    -- line 86: check before starting the pair
    if env.cancel t then ⟨t + 1, sc, [], some i, none, true⟩
    else
      match _run_single_translation env gst_cmd cfg p i (t + 1) with
      | .error e => ⟨t + 1, sc, [], some i, some e, true⟩
      | .ok (success, t', _) =>
        if success then
          let out := batchLoop env gst_cmd cfg rest (i + 1) t' (sc + 1)
          ⟨out.t, out.success_count, (i, true) :: out.results,
           some (out.lastI.getD i), out.err, out.stopped⟩
        else if env.cancel t' then
          -- lines 95-96
          ⟨t' + 1, sc, [(i, false)], some i, none, true⟩
        else
          let out := batchLoop env gst_cmd cfg rest (i + 1) (t' + 1) sc
          ⟨out.t, out.success_count, (i, false) :: out.results,
           some (out.lastI.getD i), out.err, out.stopped⟩

/-- Overall outcome of run_translation_batch: the returned value (or
a propagating exception), the recorded pair results, the success
count, the final clock, and whether the final poll of line 100 saw
the signal set. -/
structure BatchOut where
  ret : Except PyError Bool
  results : List (Nat × Bool)
  success_count : Nat
  tEnd : Nat
  cancelledEnd : Bool
deriving Repr

/-- Embedding of run_translation_batch (lines 62-107).  A missing
executable fails the whole batch before any pair (lines 73-76).
After the loop, line 100 polls the signal once more: when set, the
batch reports failure — unless the loop never bound its variable (an
empty batch), in which case the log f-string on line 102 raises
NameError.  Otherwise the batch succeeds exactly when the success
count equals the pair count (line 107). -/
def run_translation_batch (env : RunEnv) (gst : Option (List Char)) (cfg : Config)
    (file_pairs : List (Option (List Char) × Option (List Char))) : BatchOut :=
  match gst with
  | none => ⟨.ok false, [], 0, 0, false⟩
  | some g =>
    let out := batchLoop env g cfg file_pairs 1 0 0
    match out.err with
    | some e => ⟨.error e, out.results, out.success_count, out.t, false⟩
    | none =>
      if env.cancel out.t then
        match out.lastI with
        | none => ⟨.error .nameError, out.results, out.success_count, out.t + 1, true⟩
        | some _ => ⟨.ok false, out.results, out.success_count, out.t + 1, true⟩
      else ⟨.ok (out.success_count == file_pairs.length),
            out.results, out.success_count, out.t + 1, false⟩

/-- The three-pair cancellation scenario: the signal fires at poll
nine, during the child-process run of pair two. -/
def env3 : RunEnv :=
  { cancel := fun t => decide (9 ≤ t)
    exec := fun i t => if i = 1 then (true, t + 3) else (false, t + 5)
    post := fun _ => .ok () }

/-- Three file pairs with plain usable subtitle paths. -/
def pairs3 : List (Option (List Char) × Option (List Char)) :=
  [(some "a.srt".data, none), (some "b.srt".data, none), (some "c.srt".data, none)]

/-- The command the builder returns for a pair whose subtitle and
video values are both sentinel placeholders. -/
def cmdSentinelPair : List (List Char) :=
  ["gst".data, "translate".data, "-o".data, "None.pl.srt".data, "-l".data,
   "Polish".data, "-k".data, "KEY".data, "--model".data, "gemini-2.5-flash".data]

/-- The command built for a plain usable subtitle path under the
sample configuration. -/
def cmdSample : List (List Char) :=
  ["gst".data, "translate".data, "-i".data, "a.srt".data, "-o".data, "a.pl.srt".data,
   "-l".data, "Polish".data, "-k".data, "KEY".data, "--model".data,
   "gemini-2.5-flash".data]

/-- No two adjacent copies of the character occur, so the run-collapse
substitution for that character cannot fire. -/
def noRun (c : Char) : List Char → Bool
  | [] => true
  | [_] => true
  | a :: b :: rest => !(a = c ∧ b = c) && noRun c (b :: rest)

/-- Neither end of the stem carries a separator or space, so the
final strip cannot fire. -/
def noEdgeSeps (l : List Char) : Bool :=
  (match l.head? with | none => true | some c => !isSepSp c) &&
  (match l.getLast? with | none => true | some c => !isSepSp c)

/-- Once the cancellation event is set it stays set (threading.Event
semantics during one batch: the GUI sets it once and never clears it
while the worker runs). -/
def MonoCancel (c : Nat → Bool) : Prop :=
  ∀ i j : Nat, i ≤ j → c i = true → c j = true

/-- An always-successful environment for concrete batch runs. -/
def envOk : RunEnv :=
  { cancel := fun _ => false
    exec := fun _ t => (true, t + 1)
    post := fun _ => .ok () }

/-- An environment whose attribution step always fails. -/
def envPostFail : RunEnv :=
  { cancel := fun _ => false
    exec := fun _ t => (true, t + 1)
    post := fun _ => .error "missing file".data }

/-! ## Theorems -/

theorem dropPrefixCI_length :
    ∀ cs l r, dropPrefixCI cs l = some r → r.length ≤ l.length := by
  intro cs
  induction cs with
  | nil => intro l r h; simp [dropPrefixCI] at h; simp [h]
  | cons c cs ih =>
    intro l r h
    cases l with
    | nil => simp [dropPrefixCI] at h
    | cons d ds =>
      simp only [dropPrefixCI] at h
      split at h
      · exact Nat.le_trans (ih ds r h) (Nat.le_succ _)
      · exact absurd h (by simp)

/-- Claim C1 (code bug): for a pair with neither path usable the
builder is claimed to return an explicit build failure, and the
caller to skip execution.  In the code, a pair of two None paths
raises TypeError out of the builder, and a pair of two sentinel
paths yields a non-empty command with no input flags, which the
caller (whose falsy-command check never fires) then executes: the
single-pair runner proceeds to the child process and even reports
success for the sentinel pair. -/
theorem C1_no_build_failure_signal :
    _build_gst_command "gst".data none none cfgSample = .error .typeError ∧
    _build_gst_command "gst".data (some "No match".data) (some "None".data) cfgSample
      = .ok cmdSentinelPair ∧
    cmdSentinelPair ≠ [] ∧
    ¬ "-i".data ∈ cmdSentinelPair ∧ ¬ "-v".data ∈ cmdSentinelPair ∧
    _run_single_translation envOk "gst".data cfgSample
        (some "No match".data, some "None".data) 1 0
      = .ok (true, 3, ["Added translator info".data]) := by
  decide

/-- Claim C5 counterexample: with the first caption starting at ten
seconds, the claimed inserted span is zero to five seconds, but the
code inserts a caption spanning one to five seconds. -/
theorem C5_counterexample_span :
    (add_translator_info [⟨1, 10, 12, "Hi".data⟩] "# Translated by M #".data).head?
        = some ⟨1, 1, 5, "# Translated by M #".data⟩ ∧
    ((1 : ℚ), (5 : ℚ)) ≠ ((0 : ℚ), (5 : ℚ)) := by
  decide

/-- Claim C5 amended: a first caption at ten seconds yields an
inserted caption from one to five seconds; a first caption at two
seconds yields an inserted caption from zero to two seconds. -/
theorem C5_amended_spans :
    (add_translator_info [⟨1, 10, 12, "Hi".data⟩] "# Translated by M #".data).head?
        = some ⟨1, 1, 5, "# Translated by M #".data⟩ ∧
    (add_translator_info [⟨1, 2, 4, "Hi".data⟩] "# Translated by M #".data).head?
        = some ⟨1, 0, 2, "# Translated by M #".data⟩ := by
  decide

/-- Claim C10: cleaning a non-empty stem never yields the empty
string; whenever stripping plus separator cleanup would produce the
empty string, the original stem is returned unchanged. -/
theorem C10_clean_nonempty (order : List (List Char)) (stem : List Char)
    (h : stem ≠ []) :
    _clean_filename_from_language_codes order stem ≠ [] ∧
    (sepCleanup (stripAllCodes order stem) = [] →
      _clean_filename_from_language_codes order stem = stem) := by
  unfold _clean_filename_from_language_codes
  cases he : (sepCleanup (stripAllCodes order stem)).isEmpty with
  | true =>
    rw [if_pos he]
    exact ⟨h, fun _ => rfl⟩
  | false =>
    rw [if_neg (by simp [he])]
    constructor
    · intro hh; rw [hh] at he; simp at he
    · intro hh; rw [hh] at he; simp at he

/-- Concrete application of the C10 theorem. -/
theorem C10_clean_nonempty_witness :
    _clean_filename_from_language_codes language_codes "pl".data ≠ [] ∧
    (sepCleanup (stripAllCodes language_codes "pl".data) = [] →
      _clean_filename_from_language_codes language_codes "pl".data = "pl".data) :=
  C10_clean_nonempty language_codes "pl".data (by decide)

/-- Claim C8 counterexample: the red Hello line, stripped of ANSI
sequences, is logged with the three-space indent the logging call
prepends, so the logged line is not the bare Hello string. -/
theorem C8_counterexample_indent :
    (readLines (fun _ => false) ["\x1b[31mHello\x1b[0m".data] 0).logs
        = ["   Hello".data] ∧
    "   Hello".data ≠ "Hello".data := by
  decide

/-- Claim C8 amended: with no cancellation, the read loop logs, in
input order, exactly those lines that are non-empty after trailing
whitespace removal and ANSI stripping, each prefixed with three
spaces; in particular the red Hello line is logged as three spaces
followed by Hello. -/
theorem C8_amended_stream :
    (∀ lines t, (readLines (fun _ => false) lines t).logs
        = lines.filterMap processLine) ∧
    processLine "\x1b[31mHello\x1b[0m".data = some "   Hello".data := by
  constructor
  · intro lines
    induction lines with
    | nil => intro t; simp [readLines]
    | cons l rest ih =>
      intro t
      simp only [readLines, if_neg (by simp : ¬ (false = true)), List.filterMap_cons]
      cases hp : processLine l with
      | none => simp [hp, ih (t + 1)]
      | some s => simp [hp, ih (t + 1)]
  · decide

theorem insertByStart_perm (x : Subtitle) :
    ∀ l, List.Perm (insertByStart x l) (x :: l) := by
  intro l
  induction l with
  | nil => exact List.Perm.refl _
  | cons y ys ih =>
    unfold insertByStart
    by_cases hxy : x.start ≤ y.start
    · rw [if_pos hxy]
    · rw [if_neg hxy]
      exact (List.Perm.cons y ih).trans (List.Perm.swap x y ys)

theorem sortByStart_perm : ∀ l, List.Perm (sortByStart l) l := by
  intro l
  induction l with
  | nil => exact List.Perm.refl _
  | cons x xs ih =>
    exact (insertByStart_perm x (sortByStart xs)).trans (List.Perm.cons x ih)

theorem reindexFrom_mem :
    ∀ (l : List Subtitle) (n : Nat) (x : Subtitle), x ∈ l →
      ∃ y ∈ reindexFrom n l,
        y.start = x.start ∧ y.stop = x.stop ∧ y.content = x.content := by
  intro l
  induction l with
  | nil => intro n x hx; cases hx
  | cons s rest ih =>
    intro n x hx
    rcases List.mem_cons.mp hx with h | h
    · subst h
      exact ⟨{ x with index := n }, List.mem_cons_self _ _, rfl, rfl, rfl⟩
    · obtain ⟨y, hy, h1, h2, h3⟩ := ih (n + 1) x h
      exact ⟨y, List.mem_cons_of_mem _ hy, h1, h2, h3⟩

/-- Claim C4: the Post-Processing Step inserts a caption whose end
time is the minimum of the first existing caption start (five seconds
when no captions parsed) and five seconds, and whose start time is
one second exactly when that end time equals five seconds, zero
otherwise. -/
theorem C4_attribution_times (subtitles : List Subtitle) (info : List Char) :
    ∃ c ∈ add_translator_info subtitles info,
      c.content = info ∧
      c.stop = min ((subtitles.head?.map Subtitle.start).getD 5) 5 ∧
      c.start = (if min ((subtitles.head?.map Subtitle.start).getD 5) 5 = (5 : ℚ)
                 then (1 : ℚ) else 0) := by
  have key : ∀ (ns : Subtitle) (l : List Subtitle),
      ∃ y ∈ reindexFrom 1 (sortByStart (ns :: l)),
        y.start = ns.start ∧ y.stop = ns.stop ∧ y.content = ns.content := by
    intro ns l
    have h1 : ns ∈ sortByStart (ns :: l) :=
      (sortByStart_perm (ns :: l)).mem_iff.mpr (List.mem_cons_self _ _)
    exact reindexFrom_mem _ 1 ns h1
  have hrw : add_translator_info subtitles info
      = reindexFrom 1 (sortByStart
          (⟨1, (if min ((subtitles.head?.map Subtitle.start).getD 5) 5 = (5 : ℚ)
                then (1 : ℚ) else 0),
              min ((subtitles.head?.map Subtitle.start).getD 5) 5, info⟩ :: subtitles)) := by
    cases subtitles <;> rfl
  rw [hrw]
  obtain ⟨y, hy, h1, h2, h3⟩ := key
    ⟨1, (if min ((subtitles.head?.map Subtitle.start).getD 5) 5 = (5 : ℚ)
         then (1 : ℚ) else 0),
        min ((subtitles.head?.map Subtitle.start).getD 5) 5, info⟩ subtitles
  exact ⟨y, hy, h3, h2, h1⟩

/-- Claim C7 counterexample: the value myNone is usable by the
wording of the claim (non-empty and equal to neither sentinel,
case-sensitively), yet the builder treats it as absent because its
basename ends with the None sentinel: the built command carries no
input flag. -/
theorem C7_counterexample_endswith :
    usable_spec "myNone".data = true ∧
    _build_gst_command "gst".data (some "myNone".data) (some "v.mkv".data) cfgSample
      = .ok ["gst".data, "translate".data, "-o".data, "v.pl.srt".data, "-l".data,
             "Polish".data, "-k".data, "KEY".data, "--model".data,
             "gemini-2.5-flash".data, "-v".data, "v.mkv".data] ∧
    ¬ "-i".data ∈
        ["gst".data, "translate".data, "-o".data, "v.pl.srt".data, "-l".data,
         "Polish".data, "-k".data, "KEY".data, "--model".data,
         "gemini-2.5-flash".data, "-v".data, "v.mkv".data] := by
  decide

/-- Claim C7 amended: the builder adds the input flag, directly after
the translate token, exactly when the subtitle value is truthy and
its basename does not end with either sentinel string (the code tests
an endswith on the basename, not equality). -/
theorem C7_amended_usability (gst sub : List Char) (video : Option (List Char))
    (cfg : Config) (cmd : List (List Char))
    (h : _build_gst_command gst (some sub) video cfg = .ok cmd) :
    (∃ rest, cmd = gst :: "translate".data :: "-i".data :: sub :: rest)
      ↔ usable_code sub = true := by
  unfold _build_gst_command at h
  by_cases hT : truthy sub = true
  · by_cases hS : endsSentinel (pathName sub) = true
    · -- basename ends with a sentinel: treated as absent
      have hu : usable_code sub = false := by simp [usable_code, hT, hS]
      simp only [truthyO, Option.getD, hT, hS, Bool.not_true, Bool.and_false,
        Bool.false_eq_true, if_false, if_true, eq_self_iff_true] at h
      cases video with
      | none => exact absurd h (by simp)
      | some v =>
        rw [hu]
        simp only [Bool.false_eq_true, iff_false]
        have hcmd := Except.ok.inj h
        rintro ⟨rest, hr⟩
        have e1 : cmd.get? 2 = some "-o".data := by rw [← hcmd]; rfl
        have e2 : cmd.get? 2 = some "-i".data := by rw [hr]; rfl
        have e3 : ("-i".data : List Char) = "-o".data :=
          Option.some.inj (e2.symm.trans e1)
        exact absurd e3 (by decide)
    · -- usable: the input flag follows the translate token
      have hu : usable_code sub = true := by simp [usable_code, hT, hS]
      simp only [truthyO, Option.getD, hT, hS, Bool.not_false, Bool.and_true,
        Bool.true_and, Bool.false_eq_true, if_false, if_true, eq_self_iff_true] at h
      have hcmd := Except.ok.inj h
      rw [hu]
      simp only [iff_true]
      have ht4 : cmd.take 4 = [gst, "translate".data, "-i".data, sub] := by
        rw [← hcmd]; rfl
      refine ⟨cmd.drop 4, ?_⟩
      conv_lhs => rw [← List.take_append_drop 4 cmd]
      rw [ht4]
      rfl
  · -- falsy subtitle value: treated as absent
    have hu : usable_code sub = false := by simp [usable_code, hT]
    simp only [truthyO, Option.getD, hT, Bool.false_eq_true, if_false] at h
    cases video with
    | none => exact absurd h (by simp)
    | some v =>
      rw [hu]
      simp only [Bool.false_eq_true, iff_false]
      have hcmd := Except.ok.inj h
      rintro ⟨rest, hr⟩
      have e1 : cmd.get? 2 = some "-o".data := by rw [← hcmd]; rfl
      have e2 : cmd.get? 2 = some "-i".data := by rw [hr]; rfl
      have e3 : ("-i".data : List Char) = "-o".data :=
        Option.some.inj (e2.symm.trans e1)
      exact absurd e3 (by decide)

/-- Concrete application of the amended C7 theorem: a plain subtitle
path receives the input flag right after the translate token. -/
theorem C7_amended_usability_witness :
    ∃ rest, cmdSample = "gst".data :: "translate".data :: "-i".data :: "a.srt".data :: rest :=
  (C7_amended_usability "gst".data "a.srt".data none cfgSample cmdSample
    (by decide)).mpr (by decide)

theorem subP1Go_id (code : List Char) :
    ∀ fuel l, l.length ≤ fuel → hasP1 code l = false → subP1Go code fuel l = l := by
  intro fuel
  induction fuel with
  | zero =>
    intro l hl _
    cases l with
    | nil => rfl
    | cons c rest => simp at hl
  | succ fuel ih =>
    intro l hl hm
    cases l with
    | nil => rfl
    | cons c rest =>
      have hrest : rest.length ≤ fuel := by
        simpa [Nat.succ_le_succ_iff] using hl
      simp only [hasP1] at hm
      by_cases hc : c = '.'
      · rw [if_pos hc] at hm
        rcases Bool.or_eq_false_iff.mp hm with ⟨hm1, hm2⟩
        simp only [subP1Go, if_pos hc]
        cases hd : dropPrefixCI code rest with
        | none =>
          dsimp only
          rw [ih rest hrest hm2]
        | some rest' =>
          rw [hd] at hm1
          dsimp only at hm1 ⊢
          rw [if_neg (by simp [hm1]), ih rest hrest hm2]
      · rw [if_neg hc] at hm
        simp only [subP1Go, if_neg hc]
        rw [ih rest hrest hm]

theorem subP2Go_id (code : List Char) :
    ∀ fuel l, l.length ≤ fuel → hasP2 code l = false → subP2Go code fuel l = l := by
  intro fuel
  induction fuel with
  | zero =>
    intro l hl _
    cases l with
    | nil => rfl
    | cons c rest => simp at hl
  | succ fuel ih =>
    intro l hl hm
    cases l with
    | nil => rfl
    | cons c rest =>
      have hrest : rest.length ≤ fuel := by
        simpa [Nat.succ_le_succ_iff] using hl
      simp only [hasP2] at hm
      by_cases hc : c = '-' ∨ c = '_'
      · rw [if_pos hc] at hm
        rcases Bool.or_eq_false_iff.mp hm with ⟨hm1, hm2⟩
        simp only [subP2Go, if_pos hc]
        cases hd : dropPrefixCI code rest with
        | none =>
          dsimp only
          rw [ih rest hrest hm2]
        | some rest' =>
          rw [hd] at hm1
          dsimp only at hm1 ⊢
          rw [if_neg (by simp [hm1]), ih rest hrest hm2]
      · rw [if_neg hc] at hm
        simp only [subP2Go, if_neg hc]
        rw [ih rest hrest hm]

theorem subP3_id (code l : List Char) (hm : hasP3 code l = false) :
    subP3 code l = l := by
  unfold hasP3 at hm
  unfold subP3
  cases hd : dropPrefixCI code l with
  | none => rfl
  | some r =>
    rw [hd] at hm
    cases r with
    | nil => rfl
    | cons s rest =>
      dsimp only at hm ⊢
      rw [if_neg (by simpa using hm)]

theorem stripOneCode_id (l code : List Char)
    (h1 : hasP1 code l = false) (h2 : hasP2 code l = false)
    (h3 : hasP3 code l = false) : stripOneCode l code = l := by
  unfold stripOneCode subP1 subP2
  rw [subP1Go_id code l.length l (Nat.le_refl _) h1,
      subP2Go_id code l.length l (Nat.le_refl _) h2,
      subP3_id code l h3]

theorem hasLangToken_false {stem : List Char} (h : hasLangToken stem = false) :
    ∀ c ∈ language_codes,
      hasP1 c stem = false ∧ hasP2 c stem = false ∧ hasP3 c stem = false := by
  intro c hc
  unfold hasLangToken at h
  rw [List.any_eq_false] at h
  have := h c hc
  simpa using this

theorem stripAllCodes_id :
    ∀ (order : List (List Char)) (stem : List Char),
      (∀ c ∈ order,
        hasP1 c stem = false ∧ hasP2 c stem = false ∧ hasP3 c stem = false) →
      stripAllCodes order stem = stem := by
  intro order
  induction order with
  | nil => intro stem _; rfl
  | cons c rest ih =>
    intro stem h
    have hc := h c (List.mem_cons_self _ _)
    show List.foldl stripOneCode (stripOneCode stem c) rest = stem
    rw [stripOneCode_id stem c hc.1 hc.2.1 hc.2.2]
    exact ih stem fun d hd => h d (List.mem_cons_of_mem _ hd)

theorem collapseChar_id (c : Char) :
    ∀ l, noRun c l = true → collapseChar c l = l := by
  intro l
  induction l with
  | nil => intro _; rfl
  | cons a rest ih =>
    intro h
    cases rest with
    | nil => rfl
    | cons b rest2 =>
      simp only [noRun, Bool.and_eq_true, Bool.not_eq_true',
        decide_eq_false_iff_not] at h
      unfold collapseChar
      rw [if_neg h.1, ih h.2]

theorem dropWhile_id_of_head {p : Char → Bool} :
    ∀ l : List Char, (∀ c, l.head? = some c → p c = false) → l.dropWhile p = l := by
  intro l h
  cases l with
  | nil => rfl
  | cons a rest =>
    have := h a rfl
    simp [List.dropWhile_cons, this]

theorem pyStripSeps_id (l : List Char) (h : noEdgeSeps l = true) :
    pyStripSeps l = l := by
  unfold noEdgeSeps at h
  have h12 := Bool.and_eq_true_iff.mp h
  unfold pyStripSeps
  rw [dropWhile_id_of_head l ?hh]
  rw [dropWhile_id_of_head l.reverse ?hl]
  · exact List.reverse_reverse l
  case hh =>
    intro c hc
    have := h12.1
    rw [hc] at this
    simpa using this
  case hl =>
    intro c hc
    have := h12.2
    rw [List.head?_reverse] at hc
    rw [hc] at this
    simpa using this

theorem sepCleanup_id (l : List Char)
    (hd : noRun '.' l = true) (hh : noRun '-' l = true)
    (hu : noRun '_' l = true) (he : noEdgeSeps l = true) :
    sepCleanup l = l := by
  unfold sepCleanup
  rw [collapseChar_id '.' l hd, collapseChar_id '-' l hh,
      collapseChar_id '_' l hu, pyStripSeps_id l he]

/-- Claim C6 counterexample: the stem en.en-x contains the recognized
token en with a supported separator, yet its cleaned form en-x still
contains that token with a separator (the anchored start pattern ran
before the dot pattern could see the second occurrence); and the
token-free stem movie..2024 is not returned unchanged, since the
separator cleanup still collapses its dots. -/
theorem C6_counterexample_cleaning :
    hasLangToken "en.en-x".data = true ∧
    _clean_filename_from_language_codes language_codes "en.en-x".data = "en-x".data ∧
    hasLangToken "en-x".data = true ∧
    hasLangToken "movie..2024".data = false ∧
    _clean_filename_from_language_codes language_codes "movie..2024".data
      = "movie.2024".data ∧
    "movie.2024".data ≠ "movie..2024".data := by
  decide

/-- Claim C6 amended: on a stem with no recognized delimited token the
substitution passes change nothing, so cleaning equals the separator
cleanup alone (with the empty-result fallback); when the stem also has
no repeated dots, hyphens or underscores and no separator or space at
either end, cleaning returns the stem unchanged.  Stems that do carry
a recognized token are cleaned of the matched occurrences, as on the
two concrete stems, but exclusion of every token occurrence is not
guaranteed in general. -/
theorem C6_amended_cleaning :
    (∀ (order : List (List Char)) (stem : List Char),
        (∀ c ∈ order, c ∈ language_codes) → hasLangToken stem = false →
        _clean_filename_from_language_codes order stem
          = (if (sepCleanup stem).isEmpty then stem else sepCleanup stem)) ∧
    (∀ (order : List (List Char)) (stem : List Char),
        (∀ c ∈ order, c ∈ language_codes) → hasLangToken stem = false →
        noRun '.' stem = true → noRun '-' stem = true → noRun '_' stem = true →
        noEdgeSeps stem = true →
        _clean_filename_from_language_codes order stem = stem) ∧
    _clean_filename_from_language_codes language_codes "movie.en".data = "movie".data ∧
    _clean_filename_from_language_codes language_codes "The_Movie_2024_pl".data
      = "The_Movie_2024".data := by
  have base : ∀ (order : List (List Char)) (stem : List Char),
      (∀ c ∈ order, c ∈ language_codes) → hasLangToken stem = false →
      _clean_filename_from_language_codes order stem
        = (if (sepCleanup stem).isEmpty then stem else sepCleanup stem) := by
    intro order stem hord htok
    unfold _clean_filename_from_language_codes
    rw [stripAllCodes_id order stem fun c hc => hasLangToken_false htok c (hord c hc)]
  refine ⟨base, ?_, by decide, by decide⟩
  intro order stem hord htok h1 h2 h3 h4
  rw [base order stem hord htok, sepCleanup_id stem h1 h2 h3 h4]
  cases stem <;> simp

/-- Concrete application of the amended C6 theorem: a token-free stem
with clean separators is returned unchanged under any iteration order
drawn from the code table. -/
theorem C6_amended_cleaning_witness :
    _clean_filename_from_language_codes language_codes "Holiday Video".data
      = "Holiday Video".data :=
  C6_amended_cleaning.2.1 language_codes "Holiday Video".data
    (fun _ hc => hc) (by decide) (by decide) (by decide) (by decide) (by decide)

theorem batchLoop_success_count (env : RunEnv) (g : List Char) (cfg : Config) :
    ∀ (pairs : List (Option (List Char) × Option (List Char))) (i t sc : Nat),
      (batchLoop env g cfg pairs i t sc).success_count
        = sc + ((batchLoop env g cfg pairs i t sc).results.filter
            (fun r => r.2)).length := by
  intro pairs
  induction pairs with
  | nil => intro i t sc; rfl
  | cons p rest ih =>
    intro i t sc
    unfold batchLoop
    split
    · rfl
    · split
      · rfl
      · split
        · dsimp only
          rw [ih]
          simp [List.filter_cons]
          omega
        · split
          · rfl
          · dsimp only
            rw [ih]
            simp [List.filter_cons]

theorem batchLoop_length (env : RunEnv) (g : List Char) (cfg : Config) :
    ∀ (pairs : List (Option (List Char) × Option (List Char))) (i t sc : Nat),
      (batchLoop env g cfg pairs i t sc).results.length ≤ pairs.length := by
  intro pairs
  induction pairs with
  | nil => intro i t sc; exact Nat.le_refl _
  | cons p rest ih =>
    intro i t sc
    unfold batchLoop
    split
    · simp
    · split
      · simp
      · split
        · dsimp only
          simpa using Nat.succ_le_succ (ih _ _ _)
        · split
          · simp
          · dsimp only
            simpa using Nat.succ_le_succ (ih _ _ _)

theorem batchLoop_order (env : RunEnv) (g : List Char) (cfg : Config) :
    ∀ (pairs : List (Option (List Char) × Option (List Char))) (i t sc : Nat),
      (batchLoop env g cfg pairs i t sc).results.map Prod.fst
        = List.range' i (batchLoop env g cfg pairs i t sc).results.length := by
  intro pairs
  induction pairs with
  | nil => intro i t sc; rfl
  | cons p rest ih =>
    intro i t sc
    unfold batchLoop
    split
    · rfl
    · split
      · rfl
      · split
        · dsimp only
          rw [List.map_cons, ih, List.length_cons, List.range'_succ _ _ 1]
        · split
          · rfl
          · dsimp only
            rw [List.map_cons, ih, List.length_cons, List.range'_succ _ _ 1]

theorem batchLoop_stopped (env : RunEnv) (g : List Char) (cfg : Config)
    (hm : MonoCancel env.cancel) :
    ∀ (pairs : List (Option (List Char) × Option (List Char))) (i t sc : Nat),
      ((batchLoop env g cfg pairs i t sc).err = none →
        (batchLoop env g cfg pairs i t sc).stopped = true →
        env.cancel (batchLoop env g cfg pairs i t sc).t = true) ∧
      ((batchLoop env g cfg pairs i t sc).stopped = false →
        (batchLoop env g cfg pairs i t sc).results.length = pairs.length) := by
  intro pairs
  induction pairs with
  | nil =>
    intro i t sc
    constructor
    · intro _ h
      cases h
    · intro _
      rfl
  | cons p rest ih =>
    intro i t sc
    unfold batchLoop
    split
    · rename_i hc
      constructor
      · intro _ _
        exact hm t (t + 1) (Nat.le_succ t) hc
      · intro h
        cases h
    · split
      · constructor
        · intro h
          cases h
        · intro h
          cases h
      · split
        · dsimp only
          constructor
          · exact (ih _ _ _).1
          · intro h
            rw [List.length_cons, (ih _ _ _).2 h]
            rfl
        · split
          · rename_i hc
            constructor
            · intro _ _
              exact hm _ _ (Nat.le_succ _) hc
            · intro h
              cases h
          · dsimp only
            constructor
            · exact (ih _ _ _).1
            · intro h
              rw [List.length_cons, (ih _ _ _).2 h]
              rfl

theorem filter_length_eq_iff_all (l : List (Nat × Bool)) :
    ((l.filter (fun r => r.2)).length = l.length) ↔ l.all (fun r => r.2) = true := by
  induction l with
  | nil => simp
  | cons a rest ih =>
    cases ha : a.2 with
    | true => simp [List.filter_cons, ha, ih]
    | false =>
      simp only [List.filter_cons, ha, Bool.false_eq_true, if_false,
        List.length_cons, List.all_cons, Bool.false_and]
      have := List.length_filter_le (fun r : Nat × Bool => r.2) rest
      constructor
      · intro h
        omega
      · intro h
        cases h

/-- The results field of the batch is the results field of its loop,
whatever the exit path. -/
theorem run_results_eq (env : RunEnv) (g : List Char) (cfg : Config)
    (pairs : List (Option (List Char) × Option (List Char))) :
    (run_translation_batch env (some g) cfg pairs).results
      = (batchLoop env g cfg pairs 1 0 0).results := by
  unfold run_translation_batch
  dsimp only
  split
  · rfl
  · split
    · split <;> rfl
    · rfl

/-- Claim C2: with the executable missing, run_translation_batch
fails immediately and attempts no pair; with it found, whenever the
batch returns a value, that value is success exactly when the final
cancellation poll was unset and every pair was run and reported
success. -/
theorem C2_batch_result (env : RunEnv) (cfg : Config)
    (pairs : List (Option (List Char) × Option (List Char))) :
    (run_translation_batch env none cfg pairs
      = ⟨.ok false, [], 0, 0, false⟩) ∧
    (∀ (g : List Char) (b : Bool),
      (run_translation_batch env (some g) cfg pairs).ret = .ok b →
      (b = true ↔
        ((run_translation_batch env (some g) cfg pairs).cancelledEnd = false ∧
         (run_translation_batch env (some g) cfg pairs).results.length = pairs.length ∧
         (run_translation_batch env (some g) cfg pairs).results.all
           (fun r => r.2) = true))) := by
  refine ⟨rfl, ?_⟩
  intro g b
  have hsc := batchLoop_success_count env g cfg pairs 1 0 0
  have hlen := batchLoop_length env g cfg pairs 1 0 0
  rw [run_results_eq]
  unfold run_translation_batch
  dsimp only
  cases herr : (batchLoop env g cfg pairs 1 0 0).err with
  | some e =>
    intro hret
    exact absurd hret (by simp)
  | none =>
    by_cases hc : env.cancel (batchLoop env g cfg pairs 1 0 0).t = true
    · rw [if_pos hc]
      cases hlast : (batchLoop env g cfg pairs 1 0 0).lastI with
      | none =>
        intro hret
        exact absurd hret (by simp)
      | some k =>
        intro hret
        have hb : b = false := (Except.ok.inj hret).symm
        subst hb
        simp
    · rw [if_neg hc]
      intro hret
      have hb : b = ((batchLoop env g cfg pairs 1 0 0).success_count
          == pairs.length) := (Except.ok.inj hret).symm
      subst hb
      simp only [beq_iff_eq, true_and]
      constructor
      · intro h
        rw [hsc, Nat.zero_add] at h
        have h1 := List.length_filter_le (fun r : Nat × Bool => r.2)
          (batchLoop env g cfg pairs 1 0 0).results
        have h3 : (batchLoop env g cfg pairs 1 0 0).results.length
            = pairs.length := by omega
        refine ⟨h3, ?_⟩
        exact (filter_length_eq_iff_all _).mp (by omega)
      · intro ⟨h1, h2⟩
        rw [hsc, Nat.zero_add]
        rw [(filter_length_eq_iff_all _).mpr h2]
        exact h1

/-- Concrete application of the C2 theorem on a one-pair batch that
succeeds. -/
theorem C2_batch_result_witness :
    true = true ↔
      ((run_translation_batch envOk (some "gst".data) cfgSample
          [(some "a.srt".data, none)]).cancelledEnd = false ∧
       (run_translation_batch envOk (some "gst".data) cfgSample
          [(some "a.srt".data, none)]).results.length
         = [(some "a.srt".data, (none : Option (List Char)))].length ∧
       (run_translation_batch envOk (some "gst".data) cfgSample
          [(some "a.srt".data, none)]).results.all (fun r => r.2) = true) :=
  (C2_batch_result envOk cfgSample [(some "a.srt".data, none)]).2
    "gst".data true (by decide)

/-- Claim C3: the coordinator polls the signal before each pair and
attempts pairs strictly in order from pair one, so nothing runs after
a stop; under a monotone signal, a batch that returned a value after
stopping early is a cancelled batch; and in the three-pair scenario
with cancellation firing during pair two, pair one is processed and
counted, pair two reports failure, pair three is never attempted, and
the summary is one success with the batch failing as cancelled. -/
theorem C3_cancellation_stops_batch :
    (∀ (env : RunEnv) (g : List Char) (cfg : Config)
        (pairs : List (Option (List Char) × Option (List Char))),
      (run_translation_batch env (some g) cfg pairs).results.map Prod.fst
        = List.range' 1
            (run_translation_batch env (some g) cfg pairs).results.length) ∧
    (∀ (env : RunEnv) (g : List Char) (cfg : Config)
        (pairs : List (Option (List Char) × Option (List Char))) (b : Bool),
      MonoCancel env.cancel →
      (run_translation_batch env (some g) cfg pairs).ret = .ok b →
      (run_translation_batch env (some g) cfg pairs).results.length
        < pairs.length →
      (run_translation_batch env (some g) cfg pairs).cancelledEnd = true) ∧
    ((run_translation_batch env3 (some "gst".data) cfgSample pairs3).results
        = [(1, true), (2, false)] ∧
     (run_translation_batch env3 (some "gst".data) cfgSample pairs3).success_count
        = 1 ∧
     (run_translation_batch env3 (some "gst".data) cfgSample pairs3).ret
        = .ok false ∧
     (run_translation_batch env3 (some "gst".data) cfgSample pairs3).cancelledEnd
        = true) := by
  refine ⟨?_, ?_, by decide, by decide, by decide, by decide⟩
  · intro env g cfg pairs
    rw [run_results_eq]
    exact batchLoop_order env g cfg pairs 1 0 0
  · intro env g cfg pairs b hm hret hlt
    rw [run_results_eq] at hlt
    revert hret
    unfold run_translation_batch
    dsimp only
    cases herr : (batchLoop env g cfg pairs 1 0 0).err with
    | some e =>
      intro hret
      exact absurd hret (by simp)
    | none =>
      by_cases hc : env.cancel (batchLoop env g cfg pairs 1 0 0).t = true
      · rw [if_pos hc]
        cases hlast : (batchLoop env g cfg pairs 1 0 0).lastI with
        | none =>
          intro hret
          exact absurd hret (by simp)
        | some k =>
          intro _
          rfl
      · rw [if_neg hc]
        intro _
        cases hs : (batchLoop env g cfg pairs 1 0 0).stopped with
        | false =>
          have := (batchLoop_stopped env g cfg hm pairs 1 0 0).2 hs
          omega
        | true =>
          have := (batchLoop_stopped env g cfg hm pairs 1 0 0).1 herr hs
          exact absurd this hc

/-- The cancellation trace of the scenario environment is monotone. -/
theorem env3_mono : MonoCancel env3.cancel := by
  intro i j hij h
  simp only [env3, decide_eq_true_eq] at h ⊢
  omega

/-- Concrete application of the C3 theorem: the scenario batch
stopped early, so its final poll saw the signal set. -/
theorem C3_cancellation_stops_batch_witness :
    (run_translation_batch env3 (some "gst".data) cfgSample pairs3).cancelledEnd
      = true :=
  C3_cancellation_stops_batch.2.1 env3 "gst".data cfgSample pairs3 false
    env3_mono (by decide) (by decide)

/-- Claim C9: after a successful child-process run with attribution
enabled, a failure raised by the attribution step is caught and
logged, and the pair is still reported successful: the runner returns
true together with the error log line. -/
theorem C9_post_failure_kept (env : RunEnv) (gst : List Char) (cfg : Config)
    (pair : Option (List Char) × Option (List Char)) (i t : Nat)
    (cmd : List (List Char)) (e : List Char)
    (hb : _build_gst_command gst pair.1 pair.2 cfg = .ok cmd)
    (hne : cmd.isEmpty = false)
    (hc1 : env.cancel t = false)
    (hx : (env.exec i (t + 1)).1 = true)
    (hc2 : env.cancel ((env.exec i (t + 1)).2) = false)
    (hsub : truthyO pair.1 = true)
    (hadd : cfg.add_translator_info = true)
    (hpost : env.post i = .error e) :
    _run_single_translation env gst cfg pair i t
      = .ok (true, (env.exec i (t + 1)).2 + 1,
          ["Error adding translator info: ".data ++ e]) := by
  simp only [_run_single_translation, postBlock, addTranslatorInfoRun, hb, hne,
    hc1, hx, hc2, hsub, hadd, hpost, Bool.false_eq_true, if_false, if_true]

/-- Concrete application of the C9 theorem. -/
theorem C9_post_failure_kept_witness :
    _run_single_translation envPostFail "gst".data cfgSample
        (some "a.srt".data, none) 1 0
      = .ok (true, 3, ["Error adding translator info: missing file".data]) :=
  C9_post_failure_kept envPostFail "gst".data cfgSample
    (some "a.srt".data, none) 1 0 cmdSample "missing file".data
    (by decide) (by decide) rfl rfl rfl rfl rfl rfl

/-- Concrete application of the C4 theorem on a one-caption file. -/
theorem C4_attribution_times_witness :
    ∃ c ∈ add_translator_info [⟨1, 10, 12, "Hi".data⟩] "# T #".data,
      c.content = "# T #".data ∧
      c.stop = min ((([⟨1, 10, 12, "Hi".data⟩] : List Subtitle).head?.map
          Subtitle.start).getD 5) 5 ∧
      c.start = (if min ((([⟨1, 10, 12, "Hi".data⟩] : List Subtitle).head?.map
          Subtitle.start).getD 5) 5 = (5 : ℚ) then (1 : ℚ) else 0) :=
  C4_attribution_times [⟨1, 10, 12, "Hi".data⟩] "# T #".data

/-- Concrete application of the amended C8 theorem. -/
theorem C8_amended_stream_witness :
    (readLines (fun _ => false) ["\x1b[31mHello\x1b[0m".data] 0).logs
      = ["\x1b[31mHello\x1b[0m".data].filterMap processLine :=
  C8_amended_stream.1 ["\x1b[31mHello\x1b[0m".data] 0
